import Mathlib

/-!
Shallow embedding of `src/parser.py` (Google Scholar profile parser).

Python dicts with string keys are modelled as insertion-ordered association
lists; the HTML structure seen by the extractor is modelled by small
structures; network fetches are function parameters; the unbounded
pagination loop takes a fuel parameter.  Fallible operations (Python
exceptions: `IndexError`, `KeyError`, failed fetches) are modelled with
`Option`.
-/

namespace ScholarParser

/-- A Python dict with string keys and values, as an insertion-ordered
association list (the `paper_info` / `details` dicts of the source). -/
abbrev Paper := List (String × String)

/-- Python `d.get(k)` / `k in d`: value at the first binding of `k`. -/
def dictLookup (d : Paper) (k : String) : Option String :=
  match d with
  | [] => none
  | (k2, v) :: rest => if k2 = k then some v else dictLookup rest k

/-- Python `d[k] = v`: overwrite in place (keeping the key's position),
otherwise append the new binding at the end. -/
def dictSet (d : Paper) (k v : String) : Paper :=
  match d with
  | [] => [(k, v)]
  | (k2, v2) :: rest => if k2 = k then (k, v) :: rest else (k2, v2) :: dictSet rest k v

/-- Python `d.update(e)`: assign each binding of `e` into `d`, in order. -/
def dictUpdate (d e : Paper) : Paper :=
  e.foldl (fun acc kv => dictSet acc kv.1 kv.2) d

/-- Digit-by-digit accumulator for `pyInt?`: `none` until a first digit is
seen, and any non-digit character rejects the whole string. -/
def digitsToNat? : List Char → Option Nat → Option Nat
  | [], acc => acc
  | c :: rest, acc =>
    if c.isDigit then digitsToNat? rest (some ((acc.getD 0) * 10 + (c.toNat - 48)))
    else none

/-- Python `int(s)` on the extracted year text: an optional leading sign
followed by one or more ASCII digits (abstracts int()'s tolerance for
surrounding whitespace and underscores, on which no claim depends).
`none` models a `ValueError`. -/
def pyInt? (s : String) : Option Int :=
  match s.data with
  | '-' :: rest => (digitsToNat? rest none).map (fun n => -(n : Int))
  | '+' :: rest => (digitsToNat? rest none).map (fun n => (n : Int))
  | l => (digitsToNat? l none).map (fun n => (n : Int))

/-- Python slicing `l[:n]`, including negative `n`. -/
def pyTake {α : Type} (l : List α) (n : Int) : List α :=
  if 0 ≤ n then l.take n.toNat else l.take (l.length - (-n).toNat)

/-- Python indexing `l[i]`: negative indices count from the end; `none`
models an `IndexError`. -/
def pyListGet {α : Type} (l : List α) (i : Int) : Option α :=
  let j := if i < 0 then i + l.length else i
  if 0 ≤ j ∧ j < (l.length : Int) then l[j.toNat]? else none

/-- The fixed origin (`self.base_url`). -/
def base_url : String := "https://scholar.google.com"

/-- Abstraction of `urllib.parse.urljoin`; the claims depend only on the
`detail_url` field being set, never on the joined value itself. -/
def urljoin (base href : String) : String := base ++ href

/-- An `<a>` inside the title cell: its text and `href` attribute
(`link.get('href', '')` yields `""` when the attribute is missing). -/
structure Link where
  text : String
  href : String
deriving DecidableEq

/-- The `td.gsc_a_t` cell of a listing row: optional first `<a>` and the
texts of its `div.gs_gray` children, in order. -/
structure TitleCell where
  link : Option Link
  grayDivs : List String
deriving DecidableEq

/-- The `td.gsc_a_c` cell: text of its `<a>` when one exists. -/
structure CitationsCell where
  link : Option String
deriving DecidableEq

/-- The `td.gsc_a_y` cell: text of its `<span>` when one exists. -/
structure YearCell where
  span : Option String
deriving DecidableEq

/-- One `tr.gsc_a_tr` listing row, as seen by `extract_paper_info`. -/
structure Row where
  titleCell : Option TitleCell
  citationsCell : Option CitationsCell
  yearCell : Option YearCell
deriving DecidableEq

/-- The fields extracted from the title cell (`title`, `detail_url`,
`authors`, `venue`), in the source's assignment order. -/
def titleFields (tc : TitleCell) : Paper :=
  let d : Paper := []
  let d := match tc.link with
    | none => d
    | some lk =>
      let d := dictSet d "title" lk.text
      if lk.href = "" then d else dictSet d "detail_url" (urljoin base_url lk.href)
  match tc.grayDivs with
  | [] => d
  | a :: rest =>
    let d := dictSet d "authors" a
    match rest with
    | [] => d
    | v :: _ => dictSet d "venue" v

/-- `extract_paper_info(row, user_id)`: builds the `paper_info` dict field
by field; any missing substructure simply leaves its fields out.
(`user_id` is accepted and ignored, exactly as in the source.) -/
def extract_paper_info (row : Row) (user_id : String) : Paper :=
  let d := match row.titleCell with
    | none => ([] : Paper)
    | some tc => titleFields tc
  let d := match row.citationsCell with
    | none => d
    | some cc => dictSet d "citations" (match cc.link with | some t => t | none => "0")
  match row.yearCell with
  | none => d
  | some yc =>
    match yc.span with
    | none => d
    | some t => dictSet d "year" t

/-- The guard `if max_papers and len(papers) >= max_papers:` — Python
truthiness makes `max_papers = 0` (and `None`) disable the cap. -/
def capStop (maxP : Option Int) (papers : List Paper) : Bool :=
  match maxP with
  | none => false
  | some n => decide (n ≠ 0) && decide (n ≤ (papers.length : Int))

/-- The year-floor test on one extracted record:
`if year_limit and paper_info.get('year'):` then `int(...) < year_limit`,
with a parse failure falling through to keeping the paper.  Python
truthiness makes `year_limit = 0` and an empty year string skip the test. -/
def yearStop (yearL : Option Int) (info : Paper) : Bool :=
  match yearL with
  | none => false
  | some y =>
    if y = 0 then false
    else
      match dictLookup info "year" with
      | none => false
      | some s =>
        if s = "" then false
        else
          match pyInt? s with
          | none => false
          | some py => decide (py < y)

/-- The `for row in paper_rows:` body of `get_profile_papers`.  Returns the
accumulated papers and whether an early `return papers` fired (cap reached
or year floor crossed).  The source binds `paper_info =
self.extract_paper_info(row, user_id)` once; it is repeated here verbatim
in each branch. -/
def processRows (maxP yearL : Option Int) (user_id : String) :
    List Row → List Paper → List Paper × Bool
  | [], papers => (papers, false)
  | row :: rest, papers =>
    if capStop maxP papers then (papers, true)
    else if (extract_paper_info row user_id).isEmpty then
      processRows maxP yearL user_id rest papers
    else if yearStop yearL (extract_paper_info row user_id) then (papers, true)
    else processRows maxP yearL user_id rest (papers ++ [extract_paper_info row user_id])

/-- The `while True:` pagination loop of `get_profile_papers`.
`pages` maps a `cstart` offset to the rows of the fetched page (`none`
models an exception in that iteration, which `break`s with the partial
result).  The second component records the offsets actually fetched, in
order.  `fuel` bounds the iteration count of the shallow embedding. -/
def getPapersLoop (pages : Nat → Option (List Row)) (maxP yearL : Option Int)
    (user_id : String) : Nat → Nat → List Paper → List Nat → List Paper × List Nat
  | 0, _, papers, offs => (papers, offs)
  | fuel + 1, start, papers, offs =>
    match pages start with
    | none => (papers, offs ++ [start])
    | some rows =>
      if rows.isEmpty then (papers, offs ++ [start])
      else
        match processRows maxP yearL user_id rows papers with
        | (papers2, true) => (papers2, offs ++ [start])
        | (papers2, false) =>
          if rows.length < 100 then (papers2, offs ++ [start])
          else getPapersLoop pages maxP yearL user_id fuel (start + rows.length)
                 papers2 (offs ++ [start])

/-- `get_profile_papers(profile_url, max_papers, year_limit)`: an empty
user id (not extractable from the URL) returns `[]` with no fetch;
otherwise the pagination loop runs from offset 0. -/
def get_profile_papers (pages : Nat → Option (List Row)) (user_id : String)
    (maxP yearL : Option Int) (fuel : Nat) : List Paper × List Nat :=
  if user_id = "" then ([], [])
  else getPapersLoop pages maxP yearL user_id fuel 0 [] []

/-- One `div.gs_scl` field/value pair of a detail page (either div may be
missing) together with the optional `#gsc_oci_descr` abstract text. -/
structure DetailPage where
  fieldRows : List (Option String × Option String)
  descr : Option String
deriving DecidableEq

/-- `get_paper_details(url)`: builds the field/value dict (rows missing
either div are skipped), then adds the abstract; a failed fetch (`none`)
returns the empty dict, exactly like the source's `except` branch. -/
def get_paper_details (fetch : String → Option DetailPage) (url : String) : Paper :=
  match fetch url with
  | none => []
  | some page =>
    let details := page.fieldRows.foldl
      (fun acc r =>
        match r with
        | (some f, some v) => dictSet acc f v
        | _ => acc) ([] : Paper)
    match page.descr with
    | none => details
    | some a => dictSet details "abstract" a

/-- `process_paper((paper, index))` without the index plumbing: fetch and
merge details only when a `detail_url` key is present. -/
def process_paper (fetch : String → Option DetailPage) (paper : Paper) : Paper :=
  match dictLookup paper "detail_url" with
  | none => paper
  | some url => dictUpdate paper (get_paper_details fetch url)

/-- One slot assignment `detailed_papers[index] = paper` of the result
consumption loop. -/
def poolStep (fetch : String → Option DetailPage) (S : List Paper)
    (slots : List (Option Paper)) (i : Nat) : List (Option Paper) :=
  match S[i]? with
  | none => slots
  | some p => slots.set i (some (process_paper fetch p))

/-- The enrichment stage (source lines 299–308): `detailed_papers` starts
as `[None] * len(papers_to_process)` and each completed unit of work is
written into the slot addressed by its original index.  `order` is the
order in which worker results are consumed — an arbitrary permutation of
the indices models concurrent completion. -/
def enrich_with_order (fetch : String → Option DetailPage) (S : List Paper)
    (order : List Nat) : List (Option Paper) :=
  order.foldl (poolStep fetch S) (List.replicate S.length none)

/-- Python `s[:n]` plus the conditional `'...'` suffix used by the summary
printer. -/
def pyTruncate (s : String) (n : Nat) : String :=
  s.take n ++ (if n < s.length then "..." else "")

/-- Append one optional labelled field of the per-paper summary. -/
def addField (l : List (String × String)) (p : Paper) (key label : String) :
    List (String × String) :=
  match dictLookup p key with
  | none => l
  | some v => l ++ [(label, v)]

/-- The conditional trailing lines of the per-paper summary (abstract /
description and the well-known detail fields). -/
def display_extras (p : Paper) : List (String × String) :=
  let l : List (String × String) :=
    match dictLookup p "abstract" with
    | some a => [("Abstract", pyTruncate a 500)]
    | none =>
      match dictLookup p "Description" with
      | some d => [("Description", pyTruncate d 500)]
      | none => []
  let l := addField l p "Journal" "Journal"
  let l := addField l p "Volume" "Volume"
  let l := addField l p "Pages" "Pages"
  let l := addField l p "Publisher" "Publisher"
  addField l p "Total citations" "Scholar Citations"

/-- Printing one paper of the final summary (source lines 312–334), as the
list of labelled lines.  `paper['title']` is a direct key access: a missing
`title` raises `KeyError`, modelled as `none`; the other fields go through
`.get(..., default)`. -/
def display_paper (p : Paper) : Option (List (String × String)) :=
  match dictLookup p "title" with
  | none => none
  | some t =>
    some ([("Title", pyTruncate t 80),
           ("Year", (dictLookup p "year").getD "Unknown"),
           ("Citations", (dictLookup p "citations").getD "0"),
           ("Authors", (dictLookup p "authors").getD "Unknown"),
           ("Venue", (dictLookup p "venue").getD "Unknown")] ++ display_extras p)

/-- The summary loop over `detailed_papers`: stops with a crash (`none`)
at the first slot that is `None` or whose paper has no title. -/
def display_results : List (Option Paper) → Option (List (List (String × String)))
  | [] => some []
  | op :: rest =>
    match op with
    | none => none
    | some p =>
      match display_paper p with
      | none => none
      | some l =>
        match display_results rest with
        | none => none
        | some ls => some (l :: ls)

/-- One candidate profile as built by `search_author_profiles`. -/
structure Profile where
  name : String
  url : String
  info : String
deriving DecidableEq

/-- The profile selection of `analyze_author_research` (lines 268–272):
only `profile_index >= len(profiles)` is corrected to 0; the chosen index
is then read with Python list indexing. -/
def select_profile (profiles : List Profile) (profile_index : Int) : Option Profile :=
  let idx := if (profiles.length : Int) ≤ profile_index then 0 else profile_index
  pyListGet profiles idx

/-- `analyze_author_research`: resolves profiles (given as input, since the
search is a network effect), selects one, lists papers, truncates to
`max_papers`, enriches, prints the summary, and returns the slot list.
`none` models an uncaught exception (`IndexError` on selection or
`KeyError` while printing). -/
def analyze_author_research (profiles : List Profile)
    (pagesOf : String → Nat → Option (List Row))
    (userIdOf : String → String)
    (fetch : String → Option DetailPage)
    (max_papers : Int) (profile_index : Int) (year_limit : Option Int)
    (order : List Nat) (fuel : Nat) : Option (List (Option Paper)) :=
  if profiles.isEmpty then some []
  else
    match select_profile profiles profile_index with
    | none => none
    | some chosen =>
      let papers := (get_profile_papers (pagesOf chosen.url) (userIdOf chosen.url)
        (some max_papers) year_limit fuel).1
      let toProcess := pyTake papers max_papers
      let slots := enrich_with_order fetch toProcess order
      match display_results slots with
      | none => none
      | some _ => some slots

/-! ### Concrete inputs used to evaluate the definitions -/

/-- A listing row carrying only a year cell with text `s`. -/
def yearRow (s : String) : Row := ⟨none, none, some ⟨some s⟩⟩

/-- A listing row whose title cell holds a link with text `"T"` and no
`href`, and nothing else. -/
def titleRow : Row := ⟨some ⟨some ⟨"T", ""⟩, []⟩, none, none⟩

/-- A listing row with none of the three cells: nothing is extractable. -/
def emptyRow : Row := ⟨none, none, none⟩

/-- A listing row with only a citations cell, which has no link. -/
def rowCitOnly : Row := ⟨none, some ⟨none⟩, none⟩

/-- A listing site consisting of one page of rows (every other offset
returns an empty page). -/
def singlePage (rows : List Row) : Nat → Option (List Row) :=
  fun i => if i = 0 then some rows else some []

/-- A listing site with page `a` at offset 0 and page `b` at offset
`a.length` (every other offset returns an empty page). -/
def twoPages (a b : List Row) : Nat → Option (List Row) :=
  fun i => if i = 0 then some a else if i = a.length then some b else some []

/-- A detail fetcher that always fails; `get_paper_details` then yields the
empty detail dict. -/
def noFetch : String → Option DetailPage := fun _ => none

/-- A detail fetcher whose pages carry a single field literally labelled
`"title"` with value `"B"`. -/
def fetchTitleB : String → Option DetailPage :=
  fun _ => some ⟨[(some "title", some "B")], none⟩

/-- A concrete candidate profile. -/
def profileA : Profile := ⟨"A", "u", "i"⟩

/-- A listing environment for the orchestrator in which every profile's
publication table is empty. -/
def emptyPagesOf : String → Nat → Option (List Row) := fun _ _ => some []

/-- A user-id extractor returning a fixed non-empty id. -/
def constUserId : String → String := fun _ => "u"

/-! ### Predicates used in theorem statements -/

/-- A record's year, when present and integer-parseable, is at least `Y`. -/
def yearOK (Y : Int) (p : Paper) : Prop :=
  ∀ s y, dictLookup p "year" = some s → pyInt? s = some y → Y ≤ y

/-- Offset `b` is the successor of a fetch at offset `a`: the page fetched
at `a` existed and `b` advanced by the number of rows received. -/
def fetchStep (pages : Nat → Option (List Row)) (a b : Nat) : Prop :=
  ∃ rows, pages a = some rows ∧ b = a + rows.length

/-- Every consecutive pair of fetched offsets advances by the number of
rows actually received. -/
def offsetsChained (pages : Nat → Option (List Row)) (offs : List Nat) : Prop :=
  List.Chain' (fetchStep pages) offs

/-! ### Dictionary lemmas -/

theorem dictLookup_dictSet_self (d : Paper) (k v : String) :
    dictLookup (dictSet d k v) k = some v := by
  induction d with
  | nil => simp [dictSet, dictLookup]
  | cons kv rest ih =>
    obtain ⟨k2, v2⟩ := kv
    by_cases h : k2 = k
    · simp [dictSet, dictLookup, h]
    · simp [dictSet, dictLookup, h, ih]

theorem dictLookup_dictSet_other (d : Paper) (k v k2 : String) (h : k ≠ k2) :
    dictLookup (dictSet d k v) k2 = dictLookup d k2 := by
  induction d with
  | nil => simp [dictSet, dictLookup, h]
  | cons kv rest ih =>
    obtain ⟨k3, v3⟩ := kv
    by_cases h3 : k3 = k
    · subst h3
      simp [dictSet, dictLookup, h]
    · simp [dictSet, dictLookup, h3, ih]

theorem dictLookup_dictUpdate_notBound (d e : Paper) (k : String)
    (h : dictLookup e k = none) :
    dictLookup (dictUpdate d e) k = dictLookup d k := by
  induction e generalizing d with
  | nil => rfl
  | cons kv rest ih =>
    obtain ⟨k2, v2⟩ := kv
    by_cases h2 : k2 = k
    · simp [dictLookup, h2] at h
    · simp only [dictLookup, if_neg h2] at h
      show dictLookup (dictUpdate (dictSet d k2 v2) rest) k = dictLookup d k
      rw [ih (dictSet d k2 v2) h, dictLookup_dictSet_other _ _ _ _ h2]

theorem dictLookup_titleFields_citations (tc : TitleCell) :
    dictLookup (titleFields tc) "citations" = none := by
  obtain ⟨lk, gds⟩ := tc
  have hti : ("title" : String) ≠ "citations" := by decide
  have hdu : ("detail_url" : String) ≠ "citations" := by decide
  have hau : ("authors" : String) ≠ "citations" := by decide
  have hve : ("venue" : String) ≠ "citations" := by decide
  cases lk with
  | none =>
    cases gds with
    | nil => rfl
    | cons a rest =>
      cases rest with
      | nil => simp [titleFields, dictLookup_dictSet_other, hau, dictLookup]
      | cons v more =>
        simp [titleFields, dictLookup_dictSet_other, hau, hve, dictLookup]
  | some l =>
    by_cases hh : l.href = ""
    · cases gds with
      | nil => simp [titleFields, hh, dictLookup_dictSet_other, hti, dictLookup]
      | cons a rest =>
        cases rest with
        | nil => simp [titleFields, hh, dictLookup_dictSet_other, hti, hau, dictLookup]
        | cons v more =>
          simp [titleFields, hh, dictLookup_dictSet_other, hti, hau, hve, dictLookup]
    · cases gds with
      | nil => simp [titleFields, hh, dictLookup_dictSet_other, hti, hdu, dictLookup]
      | cons a rest =>
        cases rest with
        | nil =>
          simp [titleFields, hh, dictLookup_dictSet_other, hti, hdu, hau, dictLookup]
        | cons v more =>
          simp [titleFields, hh, dictLookup_dictSet_other, hti, hdu, hau, hve, dictLookup]

/-! ### Row-loop lemmas -/

theorem processRows_cons (maxP yearL : Option Int) (u : String) (row : Row)
    (rest : List Row) (papers : List Paper) :
    processRows maxP yearL u (row :: rest) papers =
      if capStop maxP papers then (papers, true)
      else if (extract_paper_info row u).isEmpty then
        processRows maxP yearL u rest papers
      else if yearStop yearL (extract_paper_info row u) then (papers, true)
      else processRows maxP yearL u rest (papers ++ [extract_paper_info row u]) := rfl

/-- Preservation: any property that holds of the incoming papers and of
every appended record holds of every paper produced by the row loop. -/
theorem processRows_mem (P : Paper → Prop) (maxP yearL : Option Int) (u : String)
    (rows : List Row) :
    ∀ papers : List Paper, (∀ p ∈ papers, P p) →
      (∀ row : Row, (extract_paper_info row u).isEmpty = false →
        yearStop yearL (extract_paper_info row u) = false →
        P (extract_paper_info row u)) →
      ∀ p ∈ (processRows maxP yearL u rows papers).1, P p := by
  induction rows with
  | nil => intro papers hp _ p hmem; exact hp p hmem
  | cons row rest ih =>
    intro papers hp hnew p hmem
    rw [processRows_cons] at hmem
    by_cases hc : capStop maxP papers
    · rw [if_pos hc] at hmem; exact hp p hmem
    · rw [if_neg hc] at hmem
      by_cases he : (extract_paper_info row u).isEmpty
      · rw [if_pos he] at hmem; exact ih papers hp hnew p hmem
      · rw [if_neg he] at hmem
        by_cases hy : yearStop yearL (extract_paper_info row u)
        · rw [if_pos hy] at hmem; exact hp p hmem
        · rw [if_neg hy] at hmem
          refine ih (papers ++ [extract_paper_info row u]) ?_ hnew p hmem
          intro q hq
          rcases List.mem_append.1 hq with hq | hq
          · exact hp q hq
          · rcases List.mem_singleton.1 hq with rfl
            exact hnew row (Bool.eq_false_iff.2 he) (Bool.eq_false_iff.2 hy)

/-- With a positive cap `N`, the row loop never grows the list past `N`. -/
theorem processRows_length_le (N : Int) (yearL : Option Int) (u : String)
    (rows : List Row) :
    ∀ papers : List Paper, 0 < N → (papers.length : Int) ≤ N →
      (((processRows (some N) yearL u rows papers).1.length : Int)) ≤ N := by
  induction rows with
  | nil => intro papers _ hlen; exact hlen
  | cons row rest ih =>
    intro papers hN hlen
    rw [processRows_cons]
    by_cases hc : capStop (some N) papers
    · rw [if_pos hc]; exact hlen
    · rw [if_neg hc]
      have hlt : (papers.length : Int) < N := by
        simp only [capStop, Bool.and_eq_true, decide_eq_true_eq] at hc
        push_neg at hc
        exact hc (by omega)
      by_cases he : (extract_paper_info row u).isEmpty
      · rw [if_pos he]; exact ih papers hN hlen
      · rw [if_neg he]
        by_cases hy : yearStop yearL (extract_paper_info row u)
        · rw [if_pos hy]; exact hlen
        · rw [if_neg hy]
          refine ih (papers ++ [extract_paper_info row u]) hN ?_
          simp only [List.length_append, List.length_singleton]
          push_cast
          omega

/-- `max_papers = 0` is falsy in Python, so the row loop behaves exactly
as with no cap at all. -/
theorem processRows_zero_cap (yearL : Option Int) (u : String) (rows : List Row) :
    ∀ papers : List Paper,
      processRows (some 0) yearL u rows papers = processRows none yearL u rows papers := by
  induction rows with
  | nil => intro papers; rfl
  | cons row rest ih =>
    intro papers
    rw [processRows_cons, processRows_cons]
    rw [if_neg (show ¬ (capStop (some 0) papers = true) by simp [capStop]),
      if_neg (show ¬ (capStop none papers = true) by simp [capStop])]
    by_cases he : (extract_paper_info row u).isEmpty
    · rw [if_pos he, if_pos he, ih]
    · rw [if_neg he, if_neg he]
      by_cases hy : yearStop yearL (extract_paper_info row u)
      · rw [if_pos hy, if_pos hy]
      · rw [if_neg hy, if_neg hy, ih]

/-- With no cap and no year floor, a page contributes exactly the
extractable (non-empty) records of its rows, in order, and never stops
early. -/
theorem processRows_no_stops (u : String) (rows : List Row) :
    ∀ papers : List Paper,
      processRows none none u rows papers =
        (papers ++ (rows.map (fun r => extract_paper_info r u)).filter
          (fun p => !p.isEmpty), false) := by
  induction rows with
  | nil => intro papers; simp [processRows]
  | cons row rest ih =>
    intro papers
    rw [processRows_cons]
    have hc : capStop none papers = false := rfl
    rw [hc]
    by_cases he : (extract_paper_info row u).isEmpty
    · rw [if_neg (by simp), if_pos he, ih]
      simp [List.filter_cons, he]
    · have hy : yearStop none (extract_paper_info row u) = false := rfl
      rw [if_neg (by simp), if_neg he, hy]
      rw [if_neg (by simp), ih]
      simp [List.filter_cons, Bool.eq_false_iff.2 he, List.append_assoc]

/-! ### Pagination-loop lemmas -/

theorem getPapersLoop_succ (pages : Nat → Option (List Row)) (maxP yearL : Option Int)
    (u : String) (fuel start : Nat) (papers : List Paper) (offs : List Nat) :
    getPapersLoop pages maxP yearL u (fuel + 1) start papers offs =
      match pages start with
      | none => (papers, offs ++ [start])
      | some rows =>
        if rows.isEmpty then (papers, offs ++ [start])
        else
          match processRows maxP yearL u rows papers with
          | (papers2, true) => (papers2, offs ++ [start])
          | (papers2, false) =>
            if rows.length < 100 then (papers2, offs ++ [start])
            else getPapersLoop pages maxP yearL u fuel (start + rows.length)
                   papers2 (offs ++ [start]) := rfl

/-- Preservation through the whole pagination loop. -/
theorem getPapersLoop_mem (P : Paper → Prop) (pages : Nat → Option (List Row))
    (maxP yearL : Option Int) (u : String)
    (hnew : ∀ row : Row, (extract_paper_info row u).isEmpty = false →
      yearStop yearL (extract_paper_info row u) = false →
      P (extract_paper_info row u)) :
    ∀ (fuel start : Nat) (papers : List Paper) (offs : List Nat),
      (∀ p ∈ papers, P p) →
      ∀ p ∈ (getPapersLoop pages maxP yearL u fuel start papers offs).1, P p := by
  intro fuel
  induction fuel with
  | zero => intro start papers offs hp p hmem; exact hp p hmem
  | succ fuel ih =>
    intro start papers offs hp p hmem
    rw [getPapersLoop_succ] at hmem
    cases hpg : pages start with
    | none => rw [hpg] at hmem; exact hp p hmem
    | some rows =>
      rw [hpg] at hmem
      dsimp only at hmem
      by_cases hre : rows.isEmpty
      · rw [if_pos hre] at hmem; exact hp p hmem
      · rw [if_neg hre] at hmem
        rcases hpr : processRows maxP yearL u rows papers with ⟨papers2, b⟩
        rw [hpr] at hmem
        have hp2 : ∀ q ∈ papers2, P q := by
          intro q hq
          have hq2 := processRows_mem P maxP yearL u rows papers hp hnew q
          rw [hpr] at hq2
          exact hq2 hq
        cases b with
        | true => exact hp2 p hmem
        | false =>
          dsimp only at hmem
          by_cases hlen : rows.length < 100
          · rw [if_pos hlen] at hmem; exact hp2 p hmem
          · rw [if_neg hlen] at hmem; exact ih _ _ _ hp2 p hmem

/-- Preservation lifted to `get_profile_papers`. -/
theorem get_profile_papers_mem (P : Paper → Prop) (pages : Nat → Option (List Row))
    (u : String) (maxP yearL : Option Int) (fuel : Nat)
    (hnew : ∀ row : Row, (extract_paper_info row u).isEmpty = false →
      yearStop yearL (extract_paper_info row u) = false →
      P (extract_paper_info row u)) :
    ∀ p ∈ (get_profile_papers pages u maxP yearL fuel).1, P p := by
  unfold get_profile_papers
  by_cases hu : u = ""
  · simp [hu]
  · rw [if_neg hu]
    exact getPapersLoop_mem P pages maxP yearL u hnew fuel 0 [] [] (by simp)

/-- The positive-cap length bound through the pagination loop. -/
theorem getPapersLoop_length_le (pages : Nat → Option (List Row)) (N : Int)
    (yearL : Option Int) (u : String) (hN : 0 < N) :
    ∀ (fuel start : Nat) (papers : List Paper) (offs : List Nat),
      (papers.length : Int) ≤ N →
      (((getPapersLoop pages (some N) yearL u fuel start papers offs).1.length : Int)) ≤ N := by
  intro fuel
  induction fuel with
  | zero => intro start papers offs hlen; exact hlen
  | succ fuel ih =>
    intro start papers offs hlen
    rw [getPapersLoop_succ]
    cases hpg : pages start with
    | none => exact hlen
    | some rows =>
      dsimp only
      by_cases hre : rows.isEmpty
      · rw [if_pos hre]; exact hlen
      · rw [if_neg hre]
        rcases hpr : processRows (some N) yearL u rows papers with ⟨papers2, b⟩
        have hlen2 : (papers2.length : Int) ≤ N := by
          have h2 := processRows_length_le N yearL u rows papers hN hlen
          rw [hpr] at h2
          exact h2
        cases b with
        | true => exact hlen2
        | false =>
          dsimp only
          by_cases hl : rows.length < 100
          · rw [if_pos hl]; exact hlen2
          · rw [if_neg hl]; exact ih _ _ _ hlen2

/-- `max_papers = 0` behaves as no cap through the whole loop. -/
theorem getPapersLoop_zero_cap (pages : Nat → Option (List Row)) (yearL : Option Int)
    (u : String) :
    ∀ (fuel start : Nat) (papers : List Paper) (offs : List Nat),
      getPapersLoop pages (some 0) yearL u fuel start papers offs =
        getPapersLoop pages none yearL u fuel start papers offs := by
  intro fuel
  induction fuel with
  | zero => intro start papers offs; rfl
  | succ fuel ih =>
    intro start papers offs
    rw [getPapersLoop_succ, getPapersLoop_succ]
    cases hpg : pages start with
    | none => rfl
    | some rows =>
      dsimp only
      by_cases hre : rows.isEmpty
      · rw [if_pos hre, if_pos hre]
      · rw [if_neg hre, if_neg hre, processRows_zero_cap]
        rcases hpr : processRows none yearL u rows papers with ⟨papers2, b⟩
        cases b with
        | true => rfl
        | false =>
          dsimp only
          by_cases hl : rows.length < 100
          · rw [if_pos hl, if_pos hl]
          · rw [if_neg hl, if_neg hl, ih]

/-- The offsets actually fetched start at the loop's starting offset and
advance, fetch by fetch, by the number of rows received. -/
theorem getPapersLoop_offsets (pages : Nat → Option (List Row)) (maxP yearL : Option Int)
    (u : String) :
    ∀ (fuel start : Nat) (papers : List Paper) (offs : List Nat),
      ∃ tail, (getPapersLoop pages maxP yearL u fuel start papers offs).2 = offs ++ tail
        ∧ (tail = [] ∨ tail.head? = some start)
        ∧ List.Chain' (fetchStep pages) tail := by
  intro fuel
  induction fuel with
  | zero =>
    intro start papers offs
    exact ⟨[], by simp [getPapersLoop], Or.inl rfl, List.chain'_nil⟩
  | succ fuel ih =>
    intro start papers offs
    rw [getPapersLoop_succ]
    cases hpg : pages start with
    | none => exact ⟨[start], rfl, Or.inr rfl, List.chain'_singleton _⟩
    | some rows =>
      dsimp only
      by_cases hre : rows.isEmpty
      · rw [if_pos hre]; exact ⟨[start], rfl, Or.inr rfl, List.chain'_singleton _⟩
      · rw [if_neg hre]
        rcases hpr : processRows maxP yearL u rows papers with ⟨papers2, b⟩
        cases b with
        | true => exact ⟨[start], rfl, Or.inr rfl, List.chain'_singleton _⟩
        | false =>
          dsimp only
          by_cases hl : rows.length < 100
          · rw [if_pos hl]; exact ⟨[start], rfl, Or.inr rfl, List.chain'_singleton _⟩
          · rw [if_neg hl]
            obtain ⟨tail, heq, hhead, hchain⟩ := ih (start + rows.length) papers2 (offs ++ [start])
            refine ⟨start :: tail, ?_, Or.inr rfl, ?_⟩
            · rw [heq, List.append_assoc, List.singleton_append]
            · rw [List.chain'_cons']
              refine ⟨?_, hchain⟩
              intro b hb
              rcases hhead with htail | hhead
              · rw [htail] at hb; cases hb
              · rw [hhead] at hb
                cases hb
                exact ⟨rows, hpg, rfl⟩

/-! ### Year-floor analysis -/

/-- A record that the row loop kept while a nonzero year floor `Y` was
active has no parseable year below `Y`. -/
theorem yearOK_of_not_yearStop (Y : Int) (hY : Y ≠ 0) (info : Paper)
    (h : yearStop (some Y) info = false) : yearOK Y info := by
  intro s y hs hy
  simp only [yearStop, if_neg hY] at h
  rw [hs] at h
  dsimp only at h
  by_cases hse : s = ""
  · subst hse
    have hε : pyInt? "" = none := by decide
    rw [hε] at hy
    cases hy
  · rw [if_neg hse, hy] at h
    simp only [decide_eq_false_iff_not, not_lt] at h
    exact h

/-! ### Single-page run -/

/-- With no cap and no year floor, a one-page listing returns exactly the
extractable records of its rows, in order. -/
theorem get_profile_papers_singlePage (rows : List Row) (fuel : Nat) :
    (get_profile_papers (singlePage rows) "u" none none (fuel + 2)).1 =
      (rows.map (fun r => extract_paper_info r "u")).filter (fun p => !p.isEmpty) := by
  rw [get_profile_papers, if_neg (by decide)]
  rw [show fuel + 2 = (fuel + 1) + 1 from rfl, getPapersLoop_succ]
  have h0 : singlePage rows 0 = some rows := rfl
  rw [h0]
  dsimp only
  by_cases hre : rows.isEmpty
  · rw [if_pos hre]
    have hq : rows = [] := List.isEmpty_iff.1 hre
    subst hq
    simp
  · rw [if_neg hre, processRows_no_stops]
    dsimp only
    by_cases hl : rows.length < 100
    · rw [if_pos hl]
      simp
    · rw [if_neg hl, getPapersLoop_succ]
      have hlen0 : rows.length ≠ 0 := by
        intro hz
        exact hre (List.isEmpty_iff.2 (List.length_eq_zero.1 hz))
      have h1 : singlePage rows (0 + rows.length) = some [] := by
        unfold singlePage
        rw [if_neg (by omega)]
      rw [h1]
      dsimp only
      simp

/-! ### Worker-pool lemmas -/

theorem poolStep_length (fetch : String → Option DetailPage) (S : List Paper)
    (slots : List (Option Paper)) (j : Nat) :
    (poolStep fetch S slots j).length = slots.length := by
  unfold poolStep
  cases S[j]? <;> simp

theorem poolFold_length (fetch : String → Option DetailPage) (S : List Paper) :
    ∀ (order : List Nat) (slots : List (Option Paper)),
      (order.foldl (poolStep fetch S) slots).length = slots.length := by
  intro order
  induction order with
  | nil => intro slots; rfl
  | cons j rest ih =>
    intro slots
    rw [List.foldl_cons, ih, poolStep_length]

theorem poolFold_get_not_mem (fetch : String → Option DetailPage) (S : List Paper) :
    ∀ (order : List Nat) (slots : List (Option Paper)) (i : Nat), i ∉ order →
      (order.foldl (poolStep fetch S) slots)[i]? = slots[i]? := by
  intro order
  induction order with
  | nil => intro slots i _; rfl
  | cons j rest ih =>
    intro slots i hni
    rw [List.foldl_cons, ih _ i (fun h => hni (List.mem_cons_of_mem _ h))]
    unfold poolStep
    cases S[j]? with
    | none => rfl
    | some p =>
      have hij : j ≠ i := fun h => hni (h ▸ List.mem_cons_self _ _)
      exact List.getElem?_set_ne hij

theorem poolFold_get_mem (fetch : String → Option DetailPage) (S : List Paper) :
    ∀ (order : List Nat) (slots : List (Option Paper)) (i : Nat) (p : Paper),
      i ∈ order → i < slots.length → S[i]? = some p →
      (order.foldl (poolStep fetch S) slots)[i]? = some (some (process_paper fetch p)) := by
  intro order
  induction order with
  | nil => intro slots i p h; cases h
  | cons j rest ih =>
    intro slots i p hmem hlen hS
    rw [List.foldl_cons]
    by_cases hr : i ∈ rest
    · exact ih _ i p hr (by rw [poolStep_length]; exact hlen) hS
    · have hij : i = j := by
        rcases List.mem_cons.1 hmem with h | h
        · exact h
        · exact absurd h hr
      subst hij
      rw [poolFold_get_not_mem fetch S rest _ i hr]
      unfold poolStep
      rw [hS]
      exact List.getElem?_set_eq_of_lt _ hlen

theorem enrich_with_order_length (fetch : String → Option DetailPage) (S : List Paper)
    (order : List Nat) : (enrich_with_order fetch S order).length = S.length := by
  unfold enrich_with_order
  rw [poolFold_length]
  simp

theorem enrich_with_order_get (fetch : String → Option DetailPage) (S : List Paper)
    (order : List Nat) (hperm : order.Perm (List.range S.length)) (i : Nat) (p : Paper)
    (hS : S[i]? = some p) :
    (enrich_with_order fetch S order)[i]? = some (some (process_paper fetch p)) := by
  have hi : i < S.length := by
    by_contra hc
    rw [List.getElem?_eq_none (le_of_not_lt hc)] at hS
    cases hS
  have hmem : i ∈ order := hperm.mem_iff.2 (List.mem_range.2 hi)
  exact poolFold_get_mem fetch S order _ i p hmem (by simpa using hi) hS

theorem enrich_nil (fetch : String → Option DetailPage) :
    ∀ order : List Nat, enrich_with_order fetch [] order = []
  | [] => rfl
  | j :: rest => by
    show (j :: rest).foldl (poolStep fetch []) (List.replicate (0:Nat) none) = []
    rw [List.foldl_cons]
    exact enrich_nil fetch rest

/-- A detail dict that binds no `"title"` key leaves the summary's title
unchanged when merged. -/
theorem process_paper_title (fetch : String → Option DetailPage) (p : Paper)
    (hfetch : ∀ u, dictLookup (get_paper_details fetch u) "title" = none) :
    dictLookup (process_paper fetch p) "title" = dictLookup p "title" := by
  unfold process_paper
  cases hd : dictLookup p "detail_url" with
  | none => rfl
  | some url => exact dictLookup_dictUpdate_notBound p _ "title" (hfetch url)

/-! ### Summary-printing lemmas -/

theorem display_paper_isSome (p : Paper) (h : (dictLookup p "title").isSome) :
    (display_paper p).isSome := by
  unfold display_paper
  cases hd : dictLookup p "title" with
  | none => rw [hd] at h; cases h
  | some t => rfl

theorem display_results_isSome (slots : List (Option Paper))
    (h : ∀ op ∈ slots, (op.bind (fun p => dictLookup p "title")).isSome) :
    (display_results slots).isSome := by
  induction slots with
  | nil => rfl
  | cons op rest ih =>
    have hop := h op (List.mem_cons_self _ _)
    cases op with
    | none => simp at hop
    | some p =>
      rw [Option.some_bind] at hop
      unfold display_results
      dsimp only
      cases hdp : display_paper p with
      | none =>
        exfalso
        have hs := display_paper_isSome p hop
        rw [hdp] at hs
        cases hs
      | some l =>
        cases hdr : display_results rest with
        | none =>
          exfalso
          have hs := ih (fun q hq => h q (List.mem_cons_of_mem _ hq))
          rw [hdr] at hs
          cases hs
        | some ls => rfl

/-- The rendered lines always carry the placeholder-defaulted year,
citations, authors and venue fields. -/
theorem display_paper_fields (p : Paper) (l : List (String × String))
    (h : display_paper p = some l) :
    ("Year", (dictLookup p "year").getD "Unknown") ∈ l
    ∧ ("Citations", (dictLookup p "citations").getD "0") ∈ l
    ∧ ("Authors", (dictLookup p "authors").getD "Unknown") ∈ l
    ∧ ("Venue", (dictLookup p "venue").getD "Unknown") ∈ l := by
  unfold display_paper at h
  cases hd : dictLookup p "title" with
  | none => rw [hd] at h; cases h
  | some t =>
    rw [hd] at h
    injection h with h
    subst h
    refine ⟨?_, ?_, ?_, ?_⟩ <;> simp

/-! ### Selection and slicing lemmas -/

theorem pyTake_zero {α : Type} (l : List α) : pyTake l 0 = [] := by
  simp [pyTake]

theorem pyListGet_isSome {α : Type} (l : List α) (i : Int) (h0 : 0 ≤ i)
    (hl : i < (l.length : Int)) : (pyListGet l i).isSome := by
  unfold pyListGet
  dsimp only
  rw [if_neg (not_lt.2 h0), if_pos ⟨h0, hl⟩]
  have hn : i.toNat < l.length := by omega
  rw [List.getElem?_eq_getElem hn]
  rfl

theorem select_profile_oob (profiles : List Profile) (i : Int)
    (hne : profiles ≠ []) (hge : (profiles.length : Int) ≤ i) :
    select_profile profiles i = profiles.head? := by
  cases profiles with
  | nil => exact absurd rfl hne
  | cons a rest =>
    unfold select_profile
    rw [if_pos hge]
    show pyListGet (a :: rest) 0 = some a
    simp [pyListGet]

theorem select_profile_isSome (profiles : List Profile) (i : Int)
    (hne : profiles ≠ []) (h0 : 0 ≤ i) : (select_profile profiles i).isSome := by
  unfold select_profile
  dsimp only
  have hlen : 0 < (profiles.length : Int) := by
    have := List.length_pos.2 hne
    omega
  by_cases hge : (profiles.length : Int) ≤ i
  · rw [if_pos hge]
    exact pyListGet_isSome profiles 0 le_rfl hlen
  · rw [if_neg hge]
    exact pyListGet_isSome profiles i h0 (lt_of_not_le hge)

/-- With `max_papers = 0` the orchestrator's defensive slice empties the
work list, so the pipeline enriches nothing and returns the empty list
(for any non-negative profile index). -/
theorem analyze_zero_max (profiles : List Profile)
    (pagesOf : String → Nat → Option (List Row)) (userIdOf : String → String)
    (fetch : String → Option DetailPage) (pi : Int) (yl : Option Int)
    (order : List Nat) (fuel : Nat) (hpi : 0 ≤ pi) :
    analyze_author_research profiles pagesOf userIdOf fetch 0 pi yl order fuel = some [] := by
  unfold analyze_author_research
  by_cases hne : profiles.isEmpty
  · rw [if_pos hne]
  · rw [if_neg hne]
    have hnn : profiles ≠ [] := by
      intro h
      subst h
      exact hne rfl
    have hsel := select_profile_isSome profiles pi hnn hpi
    cases hs : select_profile profiles pi with
    | none => rw [hs] at hsel; cases hsel
    | some chosen =>
      dsimp only
      rw [pyTake_zero, enrich_nil]
      rfl

/-! ### Claim theorems -/

/-- C1 (corrected: the floor must be nonzero, since `year_limit = 0` is
falsy in Python and disables the check): for every nonzero year floor `Y`,
every paper returned by `get_profile_papers` whose year is present and
integer-parseable has year at least `Y`; and on the spec's scenario — rows
with years 2021, 2020, 2019, 2022 and `Y = 2020` — the result is exactly
the 2021 and 2020 records (the 2019 row stops the scan, the trailing 2022
row is never reached). -/
theorem C1_year_floor :
    (∀ (pages : Nat → Option (List Row)) (u : String) (maxP : Option Int)
        (fuel : Nat) (Y : Int), Y ≠ 0 →
      ∀ p ∈ (get_profile_papers pages u maxP (some Y) fuel).1, yearOK Y p)
    ∧ (get_profile_papers
        (singlePage [yearRow "2021", yearRow "2020", yearRow "2019", yearRow "2022"])
        "u" none (some 2020) 5).1
      = [[("year", "2021")], [("year", "2020")]] := by
  constructor
  · intro pages u maxP fuel Y hY
    exact get_profile_papers_mem (yearOK Y) pages u maxP (some Y) fuel
      (fun row _ hys => yearOK_of_not_yearStop Y hY _ hys)
  · decide

/-- Witness for C1: the theorem applied at the spec's scenario, on the
returned 2021 record. -/
theorem C1_witness : (2020 : Int) ≤ 2021 :=
  C1_year_floor.1
    (singlePage [yearRow "2021", yearRow "2020", yearRow "2019", yearRow "2022"])
    "u" none 5 2020 (by decide) [("year", "2021")] (by decide) "2021" 2021
    (by decide) (by decide)

/-- C1 counterexample: with `year_limit = 0` (falsy) the floor is not
enforced — the returned paper has parseable year -1, strictly below the
limit 0, contradicting the claim as stated for every `Y`. -/
theorem C1_counterexample :
    dictLookup ((get_profile_papers (singlePage [yearRow "-1"]) "u" none (some 0) 5).1.headD [])
      "year" = some "-1"
    ∧ pyInt? "-1" = some (-1)
    ∧ ((-1 : Int) < 0) := by decide

/-- C2 (corrected: the cap must be positive, since `max_papers = 0` is
falsy and disables the cap, and a negative cap trivially returns nothing):
for every positive `N`, `get_profile_papers` returns at most `N` papers. -/
theorem C2_max_papers (pages : Nat → Option (List Row)) (u : String)
    (yearL : Option Int) (fuel : Nat) (N : Int) (hN : 0 < N) :
    (((get_profile_papers pages u (some N) yearL fuel).1.length : Int)) ≤ N := by
  unfold get_profile_papers
  by_cases hu : u = ""
  · rw [if_pos hu]
    simp
    omega
  · rw [if_neg hu]
    exact getPapersLoop_length_le pages N yearL u hN fuel 0 [] [] (by simp; omega)

/-- Witness for C2 at `N = 1` on a one-row page. -/
theorem C2_witness :
    (((get_profile_papers (singlePage [titleRow]) "u" (some 1) none 5).1.length : Int)) ≤ 1 :=
  C2_max_papers (singlePage [titleRow]) "u" none 5 1 (by decide)

/-- C2 counterexample: with `max_papers = 0` one paper is returned, not at
most zero — the cap is disabled by Python truthiness. -/
theorem C2_counterexample :
    (get_profile_papers (singlePage [titleRow]) "u" (some 0) none 5).1.length = 1
    ∧ ¬ (((get_profile_papers (singlePage [titleRow]) "u" (some 0) none 5).1.length : Int) ≤ 0) := by
  decide

/-- C3 (corrected: titles survive only when the detail mapping itself binds
no "title" key, since `paper.update(details)` merges by key): for every
input `S` and every completion order (a permutation of the indices), the
enrichment stage returns a sequence of the same length whose `i`-th slot is
exactly the enrichment of `S[i]`; under the no-"title"-field hypothesis the
title is preserved. -/
theorem C3_enrich_order (fetch : String → Option DetailPage) (S : List Paper)
    (order : List Nat) (hperm : order.Perm (List.range S.length))
    (hfetch : ∀ u, dictLookup (get_paper_details fetch u) "title" = none) :
    (enrich_with_order fetch S order).length = S.length
    ∧ ∀ (i : Nat) (p : Paper), S[i]? = some p →
        (enrich_with_order fetch S order)[i]? = some (some (process_paper fetch p))
        ∧ dictLookup (process_paper fetch p) "title" = dictLookup p "title" := by
  refine ⟨enrich_with_order_length fetch S order, ?_⟩
  intro i p hS
  exact ⟨enrich_with_order_get fetch S order hperm i p hS,
    process_paper_title fetch p hfetch⟩

/-- Witness for C3 on a one-element input with completion order `[0]`. -/
theorem C3_witness :
    (enrich_with_order noFetch [[("title", "T")]] [0]).length = 1
    ∧ (enrich_with_order noFetch [[("title", "T")]] [0])[0]?
        = some (some (process_paper noFetch [("title", "T")])) := by
  have h := C3_enrich_order noFetch [[("title", "T")]] [0]
    (List.Perm.refl [0]) (fun u => rfl)
  exact ⟨h.1, (h.2 0 [("title", "T")] rfl).1⟩

/-- C3 counterexample: a detail page with a field literally labelled
"title" overwrites the summary's title on merge, so
`enrich(S)[0].title = "B" ≠ "A" = S[0].title` even though `[0]` is a
legitimate completion order. -/
theorem C3_counterexample :
    (enrich_with_order fetchTitleB [[("title", "A"), ("detail_url", "x")]] [0])[0]?
      = some (some [("title", "B"), ("detail_url", "x")])
    ∧ dictLookup [("title", "A"), ("detail_url", "x")] "title" = some "A"
    ∧ [0].Perm (List.range 1) := by
  exact ⟨by decide, by decide, List.Perm.refl [0]⟩

/-- C4 (corrected: only rows from which nothing at all can be extracted
are skipped — a non-empty title is not guaranteed): every paper returned by
`get_profile_papers` is a non-empty record. -/
theorem C4_nonempty_record (pages : Nat → Option (List Row)) (u : String)
    (maxP yearL : Option Int) (fuel : Nat) :
    ∀ p ∈ (get_profile_papers pages u maxP yearL fuel).1, p.isEmpty = false :=
  get_profile_papers_mem (fun p => p.isEmpty = false) pages u maxP yearL fuel
    (fun _ hne _ => hne)

/-- Witness for C4 on the record returned from a one-row page. -/
theorem C4_witness : (([("title", "T")] : Paper)).isEmpty = false :=
  C4_nonempty_record (singlePage [titleRow]) "u" none none 5 [("title", "T")] (by decide)

/-- C4 counterexample: a row carrying only a citations cell is returned as
a summary with no `title` key at all (and such a record is non-empty, so it
is not skipped). -/
theorem C4_counterexample :
    (get_profile_papers (singlePage [rowCitOnly]) "u" none none 5).1
      = [[("citations", "0")]]
    ∧ dictLookup [("citations", "0")] "title" = none := by decide

/-- C5 (corrected: a completely unparseable row contributes nothing to the
returned sequence — its empty record is dropped by the truthiness check,
not included): a one-page listing returns exactly the non-empty extracted
records of its rows, in order, so unparseable rows are skipped without
aborting the page and partially parseable rows contribute exactly their
extracted fields. -/
theorem C5_page_filter (rows : List Row) (fuel : Nat) :
    (get_profile_papers (singlePage rows) "u" none none (fuel + 2)).1
      = (rows.map (fun r => extract_paper_info r "u")).filter (fun p => !p.isEmpty) :=
  get_profile_papers_singlePage rows fuel

/-- Witness for C5 on a page with one unparseable and one parseable row. -/
theorem C5_witness :
    (get_profile_papers (singlePage [emptyRow, titleRow]) "u" none none 2).1
      = ([emptyRow, titleRow].map (fun r => extract_paper_info r "u")).filter
          (fun p => !p.isEmpty) :=
  C5_page_filter [emptyRow, titleRow] 0

/-- C5 counterexample: the fully unparseable row yields the empty extracted
record, and the returned sequence is empty — no empty record appears in
it. -/
theorem C5_counterexample :
    extract_paper_info emptyRow "u" = []
    ∧ (get_profile_papers (singlePage [emptyRow]) "u" none none 5).1 = [] := by decide

/-- C6 (corrected: every expected field except the title is
placeholder-rendered): printing the final summary succeeds whenever every
slot holds a paper with a `title` key, and the rendered lines default the
year, citations, authors and venue of any item to placeholder values; the
title itself is a direct key access whose absence crashes. -/
theorem C6_display_safe (slots : List (Option Paper))
    (h : ∀ op ∈ slots, (op.bind (fun p => dictLookup p "title")).isSome) :
    (display_results slots).isSome
    ∧ ∀ (p : Paper) (l : List (String × String)), display_paper p = some l →
        ("Year", (dictLookup p "year").getD "Unknown") ∈ l
        ∧ ("Citations", (dictLookup p "citations").getD "0") ∈ l
        ∧ ("Authors", (dictLookup p "authors").getD "Unknown") ∈ l
        ∧ ("Venue", (dictLookup p "venue").getD "Unknown") ∈ l :=
  ⟨display_results_isSome slots h, display_paper_fields⟩

/-- Witness for C6 on a one-slot list whose paper has only a title. -/
theorem C6_witness : (display_results [some [("title", "T")]]).isSome :=
  (C6_display_safe [some [("title", "T")]] (by decide)).1

/-- C6 counterexample: the pipeline can produce an enriched sequence (from
a citations-only listing row) whose item has no `title` key; printing the
summary then crashes (`paper['title']` raises KeyError) instead of
rendering a placeholder. -/
theorem C6_counterexample :
    display_results (enrich_with_order noFetch
      ((get_profile_papers (singlePage [rowCitOnly]) "u" none none 5).1) [0]) = none := by
  decide

/-- C7 (corrected: only indices at or above the candidate count are
clamped): `profile_index ≥ len(candidates)` selects profile 0 and the
selection never fails there; negative indices are left uncorrected, so a
negative index below `-len` still fails with an out-of-bounds access. -/
theorem C7_index_clamp (profiles : List Profile) (i : Int)
    (hne : profiles ≠ []) (hge : (profiles.length : Int) ≤ i) :
    select_profile profiles i = profiles.head?
    ∧ (select_profile profiles i).isSome := by
  refine ⟨select_profile_oob profiles i hne hge, ?_⟩
  rw [select_profile_oob profiles i hne hge]
  cases profiles with
  | nil => exact absurd rfl hne
  | cons a rest => rfl

/-- Witness for C7: index 5 against a single candidate resolves to it. -/
theorem C7_witness :
    select_profile [profileA] 5 = some profileA
    ∧ (select_profile [profileA] 5).isSome :=
  C7_index_clamp [profileA] 5 (by decide) (by decide)

/-- C7 counterexample: index -2 with one candidate is out of bounds but is
not corrected to 0 — Python indexing raises IndexError (`none`) and the
whole run fails rather than selecting profile 0. -/
theorem C7_counterexample :
    select_profile [profileA] (-2) = none
    ∧ analyze_author_research [profileA] emptyPagesOf constUserId noFetch 20 (-2) none [] 1
        = none := by decide

/-- C8 (corrected: the citation-count field exists exactly when the row has
a citations cell): the extracted field equals the citation link's text,
defaulting to "0" when the cell carries no link; a row with no citations
cell yields a summary with no such field at all. -/
theorem C8_citations_field :
    (∀ (row : Row) (u : String) (cc : CitationsCell), row.citationsCell = some cc →
      dictLookup (extract_paper_info row u) "citations"
        = some (match cc.link with | some t => t | none => "0"))
    ∧ (∀ (row : Row) (u : String), row.citationsCell = none →
      dictLookup (extract_paper_info row u) "citations" = none) := by
  constructor
  · intro row u cc hcc
    obtain ⟨tc, c0, yc⟩ := row
    subst hcc
    unfold extract_paper_info
    dsimp only
    cases yc with
    | none => exact dictLookup_dictSet_self _ _ _
    | some yc2 =>
      obtain ⟨sp⟩ := yc2
      cases sp with
      | none => exact dictLookup_dictSet_self _ _ _
      | some t =>
        rw [dictLookup_dictSet_other _ _ _ _ (by decide)]
        exact dictLookup_dictSet_self _ _ _
  · intro row u hcc
    obtain ⟨tc, c0, yc⟩ := row
    subst hcc
    unfold extract_paper_info
    dsimp only
    have hbase :
        dictLookup (match tc with | none => ([] : Paper) | some tc2 => titleFields tc2)
          "citations" = none := by
      cases tc with
      | none => rfl
      | some tc2 => exact dictLookup_titleFields_citations tc2
    cases yc with
    | none => exact hbase
    | some yc2 =>
      obtain ⟨sp⟩ := yc2
      cases sp with
      | none => exact hbase
      | some t =>
        rw [dictLookup_dictSet_other _ _ _ _ (by decide)]
        exact hbase

/-- Witness for C8: a link-less citations cell yields "0"; a row without
the cell yields no field. -/
theorem C8_witness :
    dictLookup (extract_paper_info rowCitOnly "u") "citations" = some "0"
    ∧ dictLookup (extract_paper_info titleRow "u") "citations" = none :=
  ⟨C8_citations_field.1 rowCitOnly "u" ⟨none⟩ rfl, C8_citations_field.2 titleRow "u" rfl⟩

/-- C8 counterexample: a row with a title cell but no citations cell
produces a summary (included in the listing result) without any
citation-count field, contradicting "always present". -/
theorem C8_counterexample :
    extract_paper_info titleRow "u" = [("title", "T")]
    ∧ dictLookup (extract_paper_info titleRow "u") "citations" = none
    ∧ (get_profile_papers (singlePage [titleRow]) "u" none none 5).1
        = [[("title", "T")]] := by decide

set_option maxRecDepth 4000 in
/-- C9 (confirmed): pagination starts at offset 0 and each fetched offset
advances by the number of rows actually received; in the
100-rows-then-37-rows scenario exactly two fetches are issued (offsets 0
and 100) and 137 items are returned, the short second page being processed
before stopping. -/
theorem C9_pagination :
    (∀ (pages : Nat → Option (List Row)) (u : String) (maxP yearL : Option Int)
        (fuel : Nat),
      ((get_profile_papers pages u maxP yearL fuel).2 = []
        ∨ (get_profile_papers pages u maxP yearL fuel).2.head? = some 0)
      ∧ offsetsChained pages (get_profile_papers pages u maxP yearL fuel).2)
    ∧ get_profile_papers
        (twoPages (List.replicate 100 titleRow) (List.replicate 37 titleRow))
        "u" none none 5
      = (List.replicate 137 [("title", "T")], [0, 100]) := by
  constructor
  · intro pages u maxP yearL fuel
    unfold get_profile_papers
    by_cases hu : u = ""
    · rw [if_pos hu]
      exact ⟨Or.inl rfl, List.chain'_nil⟩
    · rw [if_neg hu]
      obtain ⟨tail, heq, hhead, hchain⟩ :=
        getPapersLoop_offsets pages maxP yearL u fuel 0 [] []
      rw [heq]
      simp only [List.nil_append]
      exact ⟨hhead, hchain⟩
  · decide

/-- Witness for C9: the general offset property instantiated at the
two-page scenario. -/
theorem C9_witness :
    ((get_profile_papers
        (twoPages (List.replicate 100 titleRow) (List.replicate 37 titleRow))
        "u" none none 5).2 = []
      ∨ (get_profile_papers
          (twoPages (List.replicate 100 titleRow) (List.replicate 37 titleRow))
          "u" none none 5).2.head? = some 0)
    ∧ offsetsChained (twoPages (List.replicate 100 titleRow) (List.replicate 37 titleRow))
        (get_profile_papers
          (twoPages (List.replicate 100 titleRow) (List.replicate 37 titleRow))
          "u" none none 5).2 :=
  C9_pagination.1 (twoPages (List.replicate 100 titleRow) (List.replicate 37 titleRow))
    "u" none none 5

/-- C10 (confirmed): `max_papers = 0` is falsy, so the Lister collects with
no cap at all (its result coincides with the uncapped run); the
orchestrator's defensive `papers[:0]` then empties the work list, and the
whole run enriches nothing and returns the empty sequence. -/
theorem C10_zero_cap :
    (∀ (pages : Nat → Option (List Row)) (u : String) (yl : Option Int) (fuel : Nat),
      get_profile_papers pages u (some 0) yl fuel
        = get_profile_papers pages u none yl fuel)
    ∧ (∀ papers : List Paper, pyTake papers 0 = [])
    ∧ (∀ (profiles : List Profile) (pagesOf : String → Nat → Option (List Row))
        (userIdOf : String → String) (fetch : String → Option DetailPage)
        (pi : Int) (yl : Option Int) (order : List Nat) (fuel : Nat), 0 ≤ pi →
      analyze_author_research profiles pagesOf userIdOf fetch 0 pi yl order fuel
        = some []) := by
  refine ⟨?_, fun papers => pyTake_zero papers, ?_⟩
  · intro pages u yl fuel
    unfold get_profile_papers
    by_cases hu : u = ""
    · rw [if_pos hu, if_pos hu]
    · rw [if_neg hu, if_neg hu, getPapersLoop_zero_cap]
  · intro profiles pagesOf userIdOf fetch pi yl order fuel hpi
    exact analyze_zero_max profiles pagesOf userIdOf fetch pi yl order fuel hpi

/-- Witness for C10: the cap-disabling equality on a one-row page, and the
empty run of the orchestrator with `max_papers = 0`. -/
theorem C10_witness :
    get_profile_papers (singlePage [titleRow]) "u" (some 0) none 5
      = get_profile_papers (singlePage [titleRow]) "u" none none 5
    ∧ analyze_author_research [profileA] emptyPagesOf constUserId noFetch 0 0 none [] 1
        = some [] :=
  ⟨C10_zero_cap.1 (singlePage [titleRow]) "u" none 5,
   C10_zero_cap.2.2 [profileA] emptyPagesOf constUserId noFetch 0 none [] 1 (by decide)⟩

end ScholarParser
